import Mathlib

/-!
Shallow embedding of `src/tabli-core/src/js/tabWindow.js` (tabli 0.8.9,
Immutable.js 3.8.1).

Modelling conventions:
* `Immutable.Record` types become Lean structures; `record.remove(key)` resets
  the field to the record's declared default, which is how Immutable.Record
  behaves, so it is modelled as a structure update with the default value.
* `Immutable.Seq` of tab items becomes `List TabItem`; `Seq.splice` at a valid
  index becomes take/drop surgery (`spliceReplace` / `spliceRemove`).
* JS `undefined`-tolerant inputs (`_.get(x, k, d)`) become `Option` fields read
  with `Option.getD`.
* Paths where the JS code would throw a `TypeError` (destructuring a failed
  `findEntry`, calling `.map` on an `undefined` tab list, dereferencing a
  `null` state record) are modelled by an `Option` result (`none` = throw).
* `Immutable.Map` has an unspecified iteration order.  The URL-keyed merge in
  `getOpenTabInfo` is therefore modelled with a fixed, deterministic group
  order (open URLs in first-occurrence order, then saved-only URLs in
  first-occurrence order); every property proved below is invariant under that
  choice, because the result is sorted or compared as a multiset afterwards.
* `groupBy` group contents preserve sequence order, which `urlGroup` (a
  filter) reflects; `firstKeys` reflects the first-occurrence key order of
  `groupBy`.
-/

/-- JS values used as identifiers can be numbers (sentinel `-1`) or strings
(bookmark/folder ids). -/
inductive JsId where
  | num : Int → JsId
  | str : String → JsId
deriving Repr, DecidableEq

/-- Record `SavedTabState` (tabWindow.js lines 10-15): tab state persisted as a
bookmark.  Defaults: `bookmarkId: ''`, `bookmarkIndex: 0`, `title: ''`,
`url: ''`. -/
structure SavedTabState where
  bookmarkId : String := ""
  bookmarkIndex : Nat := 0
  title : String := ""
  url : String := ""
deriving Repr, DecidableEq

/-- Record `OpenTabState` (lines 21-29): tab state of an open browser tab.
`favIconUrl` and `audible` are copied through from the raw tab without a
lodash default, so they keep their possibly-absent (`Option`) shape. -/
structure OpenTabState where
  url : String := ""
  openTabId : Int := -1
  active : Bool := false
  openTabIndex : Nat := 0
  favIconUrl : Option String := none
  title : String := ""
  audible : Option Bool := none
deriving Repr, DecidableEq

/-- Record `TabItem` (lines 37-45): an item in a tabbed window, associated with
an open tab, a bookmark, or both.  Source comments: `savedState : SavedTabState
iff saved`, `openState : OpenTabState iff open`. -/
structure TabItem where
  url : String := ""
  saved : Bool := false
  savedState : Option SavedTabState := none
  «open» : Bool := false
  openState : Option OpenTabState := none
deriving Repr, DecidableEq

/-- Record `TabWindow` (lines 146-156): window-level saved and open facets plus
the ordered tab item sequence. -/
structure TabWindow where
  saved : Bool := false
  savedTitle : String := ""
  savedFolderId : JsId := JsId.num (-1)
  «open» : Bool := false
  openWindowId : Int := -1
  windowType : String := ""
  tabItems : List TabItem := []
deriving Repr, DecidableEq

/-- Shape of a live Chrome tab (external interface): `{ id, url?, title?,
favIconUrl?, active, index, audible }`. -/
structure Tab where
  id : Int
  url : Option String := none
  title : Option String := none
  favIconUrl : Option String := none
  active : Bool := false
  index : Nat := 0
  audible : Option Bool := none
deriving Repr, DecidableEq

/-- Shape of a bookmark tree node (external interface): `{ id, index, title?,
url? }` for a leaf. -/
structure BookmarkNode where
  id : String
  index : Nat := 0
  title : Option String := none
  url : Option String := none
deriving Repr, DecidableEq

/-- Shape of a live Chrome window (external interface):
`{ id, type, tabs? }`. -/
structure ChromeWindow where
  id : Int
  type : String := ""
  tabs : Option (List Tab) := none
deriving Repr, DecidableEq

/-- `makeSavedTabState` (lines 58-70): initialize saved tab state from a
bookmark; note the explicit field mapping `bookmarkId := bm.id`,
`bookmarkIndex := bm.index`. -/
def makeSavedTabState (bm : BookmarkNode) : SavedTabState :=
  let url := bm.url.getD ""
  { url
    title := bm.title.getD url
    bookmarkId := bm.id
    bookmarkIndex := bm.index }

/-- `makeBookmarkedTabItem` (lines 77-86): a closed, saved-only item. -/
def makeBookmarkedTabItem (bm : BookmarkNode) : TabItem :=
  let savedState := makeSavedTabState bm
  { url := savedState.url
    saved := true
    savedState := some savedState }

/-- `makeOpenTabState` (lines 91-106). -/
def makeOpenTabState (tab : Tab) : OpenTabState :=
  let url := tab.url.getD ""
  { url
    audible := tab.audible
    favIconUrl := tab.favIconUrl
    title := tab.title.getD url
    openTabId := tab.id
    active := tab.active
    openTabIndex := tab.index }

/-- `makeOpenTabItem` (lines 111-120): an open-only item. -/
def makeOpenTabItem (tab : Tab) : TabItem :=
  let openState := makeOpenTabState tab
  { url := openState.url
    «open» := true
    openState := some openState }

/-- `resetSavedItem` (lines 125-127): `ti.remove('open').remove('openState')`;
`Record.remove` resets each field to its default. -/
def resetSavedItem (ti : TabItem) : TabItem :=
  { ti with «open» := false, openState := none }

/-- `resetOpenItem` (lines 132-134): `ti.remove('saved').remove('savedState')`. -/
def resetOpenItem (ti : TabItem) : TabItem :=
  { ti with saved := false, savedState := none }

/-- `removeOpenWindowState` (lines 195-200): keep only saved items, reset each
to its base saved state, and reset the window-level open facet fields to their
record defaults. -/
def removeOpenWindowState (tabWindow : TabWindow) : TabWindow :=
  let savedItems := tabWindow.tabItems.filter (fun ti => ti.saved)
  let resetSavedItems := savedItems.map resetSavedItem
  { tabWindow with
    «open» := false
    openWindowId := -1
    windowType := ""
    tabItems := resetSavedItems }

/-- `removeSavedWindowState` (lines 207-209): reset the window-level saved
facet fields to their record defaults; `tabItems` is untouched. -/
def removeSavedWindowState (tabWindow : TabWindow) : TabWindow :=
  { tabWindow with
    saved := false
    savedFolderId := JsId.num (-1)
    savedTitle := "" }

/-- `makeChromeTabWindow` (lines 238-249), the spec's `fromLiveWindow`. -/
def makeChromeTabWindow (chromeWindow : ChromeWindow) : TabWindow :=
  let chromeTabs := chromeWindow.tabs.getD []
  { «open» := true
    openWindowId := chromeWindow.id
    windowType := chromeWindow.type
    tabItems := chromeTabs.map makeOpenTabItem }

/-- `Seq.findEntry(pred)`: first `(index, value)` pair satisfying the
predicate, or `undefined` (`none`). -/
def findEntry? (p : TabItem → Bool) : List TabItem → Option (Nat × TabItem)
  | [] => none
  | x :: xs =>
    if p x then some (0, x)
    else (findEntry? p xs).map (fun e => (e.1 + 1, e.2))

/-- `Seq.splice(i, 1, x)`: replace the element at index `i` with `x`. -/
def spliceReplace (l : List TabItem) (i : Nat) (x : TabItem) : List TabItem :=
  l.take i ++ x :: l.drop (i + 1)

/-- `Seq.splice(i, 1)`: remove the element at index `i`. -/
def spliceRemove (l : List TabItem) (i : Nat) : List TabItem :=
  l.take i ++ l.drop (i + 1)

/-- `Seq.splice(i, 0, x)`: insert `x` at index `i`. -/
def spliceInsert (l : List TabItem) (i : Nat) (x : TabItem) : List TabItem :=
  l.take i ++ x :: l.drop i

/-- Keys of a `groupBy` of the given key list, in first-occurrence order. -/
def firstKeys : List String → List String
  | [] => []
  | u :: us => u :: (firstKeys us).filter (fun v => !(v == u))

/-- Group contents of a URL `groupBy`: the items carrying URL `u`, in sequence
order. -/
def urlGroup (items : List TabItem) (u : String) : List TabItem :=
  items.filter (fun ti => ti.url == u)

/-- `chromeOpenTabItems` (line 257): the live tabs as open-only items. -/
def liveTabItems (openTabs : List Tab) : List TabItem :=
  openTabs.map makeOpenTabItem

/-- `baseSavedItems` (lines 268-272): the prior sequence's saved items, each
restored to its base saved state. -/
def baseSavedItems (tabItems : List TabItem) : List TabItem :=
  (tabItems.filter (fun ti => ti.saved)).map resetSavedItem

/-- `mergeTabItems` (lines 281-285): every open item in the URL group inherits
the saved facet of the first saved item in the group
(`mergeSavedItems.get(0)`). -/
def mergeTabItems (openItems mergeSavedItems : List TabItem) : List TabItem :=
  openItems.map (fun openItem =>
    { openItem with
      saved := true
      savedState := mergeSavedItems.head?.bind TabItem.savedState })

/-- URL-keyed groups of `openUrlMap.mergeWith(mergeTabItems, savedUrlMap)`
(line 287), flattened group order fixed as: open URLs in first-occurrence
order, then saved-only URLs in first-occurrence order (the JS `Immutable.Map`
iteration order is unspecified; all proved properties are order-invariant). -/
def mergedGroups (tabItems : List TabItem) (openTabs : List Tab) : List (List TabItem) :=
  let chromeItems := liveTabItems openTabs
  let saved := baseSavedItems tabItems
  let openUrls := firstKeys (chromeItems.map TabItem.url)
  let savedUrls := firstKeys (saved.map TabItem.url)
  openUrls.map (fun u =>
    if savedUrls.contains u then mergeTabItems (urlGroup chromeItems u) (urlGroup saved u)
    else urlGroup chromeItems u)
  ++ (savedUrls.filter (fun u => !(openUrls.contains u))).map (fun u => urlGroup saved u)

/-- `getOpenTabInfo` (lines 256-299): the merged items partitioned by the
`open` flag (`groupBy(ti => ti.open)`), as the pair
(open partition, closed partition). -/
def getOpenTabInfo (tabItems : List TabItem) (openTabs : List Tab) :
    List TabItem × List TabItem :=
  let flat := (mergedGroups tabItems openTabs).flatten
  (flat.filter (fun ti => ti.«open»), flat.filter (fun ti => !ti.«open»))

/-- Sort key of `sortBy((ti) => ti.openState.openTabIndex)` (line 316); every
item in the open partition carries an `openState` (the JS code would throw
otherwise). -/
def openIndexKey (ti : TabItem) : Nat :=
  (ti.openState.map OpenTabState.openTabIndex).getD 0

/-- Sort key of `sortBy((ti) => ti.savedState.bookmarkIndex)` (line 317). -/
def bookmarkIndexKey (ti : TabItem) : Nat :=
  (ti.savedState.map SavedTabState.bookmarkIndex).getD 0

/-- Stable insertion of an item into a key-sorted list (helper for the
`Seq.sortBy` model). -/
def insertByKey (key : TabItem → Nat) (x : TabItem) : List TabItem → List TabItem
  | [] => [x]
  | y :: ys => if key x < key y then x :: y :: ys else y :: insertByKey key x ys

/-- Model of `Seq.sortBy(key)`: a stable sort ascending by the key. -/
def sortByKey (key : TabItem → Nat) : List TabItem → List TabItem
  | [] => []
  | x :: xs => insertByKey key x (sortByKey key xs)

/-- `mergeOpenTabs` (lines 310-322): sort the open partition by
`openTabIndex`, the closed partition by `bookmarkIndex`, and concatenate
open-then-closed. -/
def mergeOpenTabs (tabItems : List TabItem) (openTabs : List Tab) : List TabItem :=
  let tabInfo := getOpenTabInfo tabItems openTabs
  sortByKey openIndexKey tabInfo.1 ++ sortByKey bookmarkIndexKey tabInfo.2

/-- `updateWindow` (lines 332-341).  When `chromeWindow.tabs` is absent the JS
code throws (`openTabs.map` on `undefined` inside `getOpenTabInfo`), modelled
as `none`. -/
def updateWindow (tabWindow : TabWindow) (chromeWindow : ChromeWindow) : Option TabWindow :=
  match chromeWindow.tabs with
  | none => none
  | some tabs =>
    let mergedTabItems := mergeOpenTabs tabWindow.tabItems tabs
    some { tabWindow with
           tabItems := mergedTabItems
           windowType := chromeWindow.type
           «open» := true
           openWindowId := chromeWindow.id }

/-- Lookup predicate `(ti) => ti.open && ti.openState.openTabId === tabId`
(lines 353, 427; also 383 with the saved item's own tab id).  For a
well-formed item `open` implies `openState` is present; on an ill-formed open
item the JS expression would throw where this predicate returns `false`. -/
def matchesOpenTabId (tabId : Int) (ti : TabItem) : Bool :=
  ti.«open» && ti.openState.any (fun os => os.openTabId == tabId)

/-- `closeTab` (lines 351-371). -/
def closeTab (tabWindow : TabWindow) (tabId : Int) : TabWindow :=
  match findEntry? (matchesOpenTabId tabId) tabWindow.tabItems with
  | none => tabWindow
  | some (index, tabItem) =>
    if tabItem.saved then
      let updTabItem := resetSavedItem tabItem
      { tabWindow with tabItems := spliceReplace tabWindow.tabItems index updTabItem }
    else
      { tabWindow with tabItems := spliceRemove tabWindow.tabItems index }

/-- Model of `new SavedTabState(tabNode)` (line 385): the Immutable.Record
constructor copies only the keys declared on the record, so of the bookmark
node's fields only `title` and `url` are taken over; the node's `id` and
`index` are not record keys and are ignored, leaving `bookmarkId` and
`bookmarkIndex` at their record defaults. -/
def savedTabStateOfNode (tabNode : BookmarkNode) : SavedTabState :=
  { bookmarkId := ""
    bookmarkIndex := 0
    title := tabNode.title.getD ""
    url := tabNode.url.getD "" }

/-- `saveTab` (lines 382-393).  The JS code destructures the `findEntry`
result and dereferences `tabItem.openState` without a guard; both failure
paths throw and are modelled as `none`. -/
def saveTab (tabWindow : TabWindow) (tabItem : TabItem) (tabNode : BookmarkNode) :
    Option TabWindow :=
  match tabItem.openState with
  | none => none
  | some os =>
    match findEntry? (matchesOpenTabId os.openTabId) tabWindow.tabItems with
    | none => none
    | some (index, _) =>
      let savedState := savedTabStateOfNode tabNode
      let updTabItem := { tabItem with saved := true, savedState := some savedState }
      some { tabWindow with tabItems := spliceReplace tabWindow.tabItems index updTabItem }

/-- Lookup predicate `(ti) => ti.open && ti.openState.active` (line 440). -/
def isActiveOpen (ti : TabItem) : Bool :=
  ti.«open» && ti.openState.any (fun os => os.active)

/-- `setActiveTab` (lines 426-457).  The guard `if (tabItem.active)` at line
435 reads a key that does not exist on the `TabItem` record, so it is always
`undefined` (falsy) and the branch is dead; it is omitted here. -/
def setActiveTab (tabWindow : TabWindow) (tabId : Int) : TabWindow :=
  match findEntry? (matchesOpenTabId tabId) tabWindow.tabItems with
  | none => tabWindow
  | some (index, tabItem) =>
    let nonActiveItems :=
      match findEntry? isActiveOpen tabWindow.tabItems with
      | some (prevIndex, prevActiveTab) =>
        let updPrevOpenState := prevActiveTab.openState.map (fun os => { os with active := false })
        let updPrevActiveTab := { prevActiveTab with openState := updPrevOpenState }
        spliceReplace tabWindow.tabItems prevIndex updPrevActiveTab
      | none => tabWindow.tabItems
    let updOpenState := tabItem.openState.map (fun os => { os with active := true })
    let updActiveTab := { tabItem with openState := updOpenState }
    { tabWindow with tabItems := spliceReplace nonActiveItems index updActiveTab }

/-- `updateTabItem` (lines 469-487). -/
def updateTabItem (tabWindow : TabWindow) (tab : Tab) : TabWindow :=
  let tabItem := makeOpenTabItem tab
  match findEntry? (matchesOpenTabId tab.id) tabWindow.tabItems with
  | none => { tabWindow with tabItems := spliceInsert tabWindow.tabItems tab.index tabItem }
  | some (index, _) => { tabWindow with tabItems := spliceReplace tabWindow.tabItems index tabItem }

/-! Concrete example data used to evaluate the definitions on closed inputs
(the spec's merge-by-URL scenario: saved a.com and c.com, live a.com and
b.com). -/

/-- Example live tab at `https://a.com`, id 7, active, index 0. -/
def tabA : Tab :=
  { id := 7, url := some "https://a.com", title := some "A", active := true, index := 0 }

/-- Example live tab at `https://b.com`, id 8, inactive, index 1. -/
def tabB : Tab :=
  { id := 8, url := some "https://b.com", title := some "B", active := false, index := 1 }

/-- Example bookmark at `https://a.com`. -/
def bmA : BookmarkNode :=
  { id := "bm1", index := 0, title := some "A", url := some "https://a.com" }

/-- Example bookmark at `https://c.com`. -/
def bmC : BookmarkNode :=
  { id := "bm2", index := 1, title := some "C", url := some "https://c.com" }

/-- Saved-only item for `bmA`. -/
def savedItemA : TabItem := makeBookmarkedTabItem bmA

/-- Saved-only item for `bmC`. -/
def savedItemC : TabItem := makeBookmarkedTabItem bmC

/-- Open-only item for `tabA`. -/
def openItemA : TabItem := makeOpenTabItem tabA

/-- Open-only item for `tabB`. -/
def openItemB : TabItem := makeOpenTabItem tabB

/-- Open-and-saved item: `tabA` with the saved facet of `bmA`. -/
def openSavedItemA : TabItem :=
  { makeOpenTabItem tabA with saved := true, savedState := some (makeSavedTabState bmA) }

/-- Example open, unsaved window holding `openItemA` and `openItemB`. -/
def windowAB : TabWindow :=
  { «open» := true, openWindowId := 1, tabItems := [openItemA, openItemB] }

/-- Example open, saved window holding `openSavedItemA` and `openItemB`. -/
def windowOS : TabWindow :=
  { «open» := true, openWindowId := 1, saved := true, savedTitle := "mine",
    savedFolderId := JsId.str "f1", tabItems := [openSavedItemA, openItemB] }

/-- Example live Chrome window snapshot with tabs `tabA`, `tabB`. -/
def chromeWinAB : ChromeWindow :=
  { id := 1, type := "normal", tabs := some [tabA, tabB] }

/-! Helper lemmas about the embedding's list combinators. -/

theorem mem_firstKeys {v : String} {l : List String} : v ∈ firstKeys l ↔ v ∈ l := by
  induction l with
  | nil => simp [firstKeys]
  | cons u us ih =>
    by_cases h : v = u
    · subst h; simp [firstKeys]
    · simp [firstKeys, List.mem_filter, ih, h]

theorem nodup_firstKeys (l : List String) : (firstKeys l).Nodup := by
  induction l with
  | nil => simp [firstKeys]
  | cons u us ih =>
    rw [firstKeys, List.nodup_cons]
    refine ⟨?_, ih.filter _⟩
    intro hmem
    have h2 := (List.mem_filter.mp hmem).2
    simp at h2

theorem insertByKey_perm (key : TabItem → Nat) (x : TabItem) (l : List TabItem) :
    (insertByKey key x l).Perm (x :: l) := by
  induction l with
  | nil => exact List.Perm.refl _
  | cons y ys ih =>
    rw [insertByKey]
    by_cases h : key x < key y
    · rw [if_pos h]
    · rw [if_neg h]
      exact (ih.cons y).trans (List.Perm.swap x y ys)

theorem sortByKey_perm (key : TabItem → Nat) (l : List TabItem) :
    (sortByKey key l).Perm l := by
  induction l with
  | nil => exact List.Perm.refl _
  | cons x xs ih =>
    rw [sortByKey]
    exact (insertByKey_perm key x (sortByKey key xs)).trans (ih.cons x)

theorem mem_sortByKey {key : TabItem → Nat} {x : TabItem} {l : List TabItem} :
    x ∈ sortByKey key l ↔ x ∈ l :=
  (sortByKey_perm key l).mem_iff

theorem pairwise_insertByKey (key : TabItem → Nat) (x : TabItem) {l : List TabItem}
    (h : l.Pairwise (fun a b => key a ≤ key b)) :
    (insertByKey key x l).Pairwise (fun a b => key a ≤ key b) := by
  induction l with
  | nil => simp [insertByKey]
  | cons y ys ih =>
    rw [List.pairwise_cons] at h
    obtain ⟨hy, hys⟩ := h
    rw [insertByKey]
    by_cases hxy : key x < key y
    · rw [if_pos hxy]
      refine List.pairwise_cons.mpr ⟨?_, List.pairwise_cons.mpr ⟨hy, hys⟩⟩
      intro a ha
      rcases List.mem_cons.mp ha with rfl | ha2
      · exact Nat.le_of_lt hxy
      · exact Nat.le_trans (Nat.le_of_lt hxy) (hy a ha2)
    · rw [if_neg hxy]
      refine List.pairwise_cons.mpr ⟨?_, ih hys⟩
      intro a ha
      have ha3 : a ∈ x :: ys := (insertByKey_perm key x ys).mem_iff.mp ha
      rcases List.mem_cons.mp ha3 with rfl | ha4
      · exact Nat.le_of_not_lt hxy
      · exact hy a ha4

theorem pairwise_sortByKey (key : TabItem → Nat) (l : List TabItem) :
    (sortByKey key l).Pairwise (fun a b => key a ≤ key b) := by
  induction l with
  | nil => simp [sortByKey]
  | cons x xs ih =>
    rw [sortByKey]
    exact pairwise_insertByKey key x ih

theorem findEntry?_eq_some {p : TabItem → Bool} :
    ∀ {l : List TabItem} {i : Nat} {x : TabItem},
      findEntry? p l = some (i, x) → l[i]? = some x ∧ p x = true := by
  intro l
  induction l with
  | nil => intro i x h; simp [findEntry?] at h
  | cons y ys ih =>
    intro i x h
    rw [findEntry?] at h
    by_cases hy : p y
    · rw [if_pos hy] at h
      injection h with h2
      injection h2 with h3 h4
      subst h3; subst h4
      exact ⟨by simp, hy⟩
    · rw [if_neg hy] at h
      cases hfind : findEntry? p ys with
      | none => rw [hfind] at h; simp at h
      | some e =>
        obtain ⟨j, z⟩ := e
        rw [hfind] at h
        simp only [Option.map_some'] at h
        injection h with h2
        injection h2 with h3 h4
        subst h3; subst h4
        obtain ⟨hget, hp⟩ := ih hfind
        exact ⟨by simpa using hget, hp⟩

theorem findEntry?_eq_none {p : TabItem → Bool} {l : List TabItem} :
    findEntry? p l = none ↔ ∀ x ∈ l, p x = false := by
  induction l with
  | nil => simp [findEntry?]
  | cons y ys ih =>
    rw [findEntry?]
    by_cases hy : p y
    · rw [if_pos hy]
      simp [hy]
    · rw [if_neg hy]
      rw [Option.map_eq_none', ih]
      constructor
      · intro hall x hx
        rcases List.mem_cons.mp hx with rfl | hx2
        · exact Bool.eq_false_iff.mpr hy
        · exact hall x hx2
      · intro hall x hx
        exact hall x (List.mem_cons_of_mem y hx)

theorem length_spliceReplace {l : List TabItem} {i : Nat} (x : TabItem)
    (h : i < l.length) : (spliceReplace l i x).length = l.length := by
  simp [spliceReplace, List.length_append, List.length_take, List.length_drop]
  omega

theorem countP_spliceReplace (p : TabItem → Bool) :
    ∀ (l : List TabItem) (i : Nat) (ti x : TabItem), l[i]? = some ti →
      (spliceReplace l i x).countP p + (if p ti then 1 else 0)
        = l.countP p + (if p x then 1 else 0) := by
  intro l
  induction l with
  | nil => intro i ti x h; simp at h
  | cons y ys ih =>
    intro i ti x h
    cases i with
    | zero =>
      simp only [List.getElem?_cons_zero, Option.some.injEq] at h
      subst h
      show (x :: ys).countP p + _ = _
      rw [List.countP_cons, List.countP_cons]
      omega
    | succ j =>
      simp only [List.getElem?_cons_succ] at h
      have h2 := ih j ti x h
      have hsp : spliceReplace (y :: ys) (j + 1) x = y :: spliceReplace ys j x := by
        simp [spliceReplace]
      rw [hsp, List.countP_cons, List.countP_cons]
      omega

theorem flatten_urlGroups_perm :
    ∀ (keys : List String) (l : List TabItem), keys.Nodup →
      (∀ x ∈ l, x.url ∈ keys) →
      ((keys.map (fun u => urlGroup l u)).flatten).Perm l := by
  intro keys
  induction keys with
  | nil =>
    intro l _ hcov
    have hnil : l = [] := by
      apply List.eq_nil_iff_forall_not_mem.mpr
      intro x hx
      exact absurd (hcov x hx) (List.not_mem_nil _)
    subst hnil
    exact List.Perm.refl _
  | cons u ks ih =>
    intro l hnd hcov
    rw [List.nodup_cons] at hnd
    obtain ⟨hu, hks⟩ := hnd
    rw [List.map_cons, List.flatten_cons]
    have hmapeq : ks.map (fun u2 => urlGroup l u2)
        = ks.map (fun u2 => urlGroup (l.filter (fun x => !(x.url == u))) u2) := by
      apply List.map_congr_left
      intro u2 hu2
      show urlGroup l u2 = urlGroup (l.filter (fun x => !(x.url == u))) u2
      rw [urlGroup, urlGroup, List.filter_filter]
      apply List.filter_congr
      intro x hx
      by_cases hx2 : x.url = u2
      · have hne : u2 ≠ u := fun hc => hu (hc ▸ hu2)
        simp [hx2, hne]
      · simp [hx2]
    have hcov2 : ∀ x ∈ l.filter (fun x => !(x.url == u)), x.url ∈ ks := by
      intro x hx
      have hmem := List.mem_filter.mp hx
      have hne : ¬ x.url = u := by simpa using hmem.2
      rcases List.mem_cons.mp (hcov x hmem.1) with hc | hc
      · exact absurd hc hne
      · exact hc
    have hperm := ih (l.filter (fun x => !(x.url == u))) hks hcov2
    rw [hmapeq]
    refine (List.Perm.append_left (urlGroup l u) hperm).trans ?_
    show (urlGroup l u ++ l.filter (fun x => !(x.url == u))).Perm l
    rw [urlGroup]
    exact List.filter_append_perm _ l

theorem mem_mergeOpenTabs_of_mem_flat {tabItems : List TabItem} {openTabs : List Tab}
    {x : TabItem} (hx : x ∈ (mergedGroups tabItems openTabs).flatten) :
    x ∈ mergeOpenTabs tabItems openTabs := by
  show x ∈ sortByKey openIndexKey (getOpenTabInfo tabItems openTabs).1
      ++ sortByKey bookmarkIndexKey (getOpenTabInfo tabItems openTabs).2
  rw [List.mem_append, mem_sortByKey, mem_sortByKey]
  show x ∈ (mergedGroups tabItems openTabs).flatten.filter (fun ti => ti.«open»)
      ∨ x ∈ (mergedGroups tabItems openTabs).flatten.filter (fun ti => !ti.«open»)
  by_cases ho : x.«open» = true
  · exact Or.inl (List.mem_filter.mpr ⟨hx, ho⟩)
  · exact Or.inr (List.mem_filter.mpr ⟨hx, by simp [ho]⟩)

theorem mergeOpenTabs_of_all_unsaved (tabItems : List TabItem) (openTabs : List Tab)
    (h : ∀ ti ∈ tabItems, ti.saved = false) :
    (mergeOpenTabs tabItems openTabs).Perm (liveTabItems openTabs) := by
  have hfilter : tabItems.filter (fun ti => ti.saved) = [] :=
    List.filter_eq_nil_iff.mpr (by intro a ha; simp [h a ha])
  have hbase : baseSavedItems tabItems = [] := by
    rw [baseSavedItems, hfilter]; rfl
  have hmg : mergedGroups tabItems openTabs
      = (firstKeys ((liveTabItems openTabs).map TabItem.url)).map
          (fun u => urlGroup (liveTabItems openTabs) u) := by
    rw [mergedGroups, hbase]
    show (firstKeys ((liveTabItems openTabs).map TabItem.url)).map _ ++ _ = _
    rw [show firstKeys (([] : List TabItem).map TabItem.url) = [] from rfl]
    simp
  have hflat : (mergedGroups tabItems openTabs).flatten.Perm (liveTabItems openTabs) := by
    rw [hmg]
    apply flatten_urlGroups_perm
    · exact nodup_firstKeys _
    · intro x hx
      exact mem_firstKeys.mpr (List.mem_map_of_mem TabItem.url hx)
  have hopen : ∀ x ∈ (mergedGroups tabItems openTabs).flatten, x.«open» = true := by
    intro x hx
    have hx2 := hflat.mem_iff.mp hx
    obtain ⟨tab, _, rfl⟩ := List.mem_map.mp hx2
    rfl
  have h1 : (mergedGroups tabItems openTabs).flatten.filter (fun ti => ti.«open»)
      = (mergedGroups tabItems openTabs).flatten :=
    List.filter_eq_self.mpr (fun a ha => hopen a ha)
  have h2 : (mergedGroups tabItems openTabs).flatten.filter (fun ti => !ti.«open») = [] :=
    List.filter_eq_nil_iff.mpr (by intro a ha; simp [hopen a ha])
  show (sortByKey openIndexKey ((mergedGroups tabItems openTabs).flatten.filter (fun ti => ti.«open»))
      ++ sortByKey bookmarkIndexKey ((mergedGroups tabItems openTabs).flatten.filter (fun ti => !ti.«open»))).Perm
      (liveTabItems openTabs)
  rw [h1, h2]
  show (sortByKey openIndexKey ((mergedGroups tabItems openTabs).flatten) ++ []).Perm _
  rw [List.append_nil]
  exact (sortByKey_perm _ _).trans hflat

/-! Claim theorems. -/

/-- C1: every output of the reconciliation engine `mergeOpenTabs` decomposes
into an all-open prefix followed by an all-closed suffix; the open items are
ascending in `openState.openTabIndex` and the closed items are ascending in
`savedState.bookmarkIndex`. -/
theorem mergeOpenTabs_partition_and_order (tabItems : List TabItem) (openTabs : List Tab) :
    ∃ openPart closedPart,
      mergeOpenTabs tabItems openTabs = openPart ++ closedPart
      ∧ (∀ ti ∈ openPart, ti.«open» = true)
      ∧ (∀ ti ∈ closedPart, ti.«open» = false)
      ∧ openPart.Pairwise (fun a b => openIndexKey a ≤ openIndexKey b)
      ∧ closedPart.Pairwise (fun a b => bookmarkIndexKey a ≤ bookmarkIndexKey b) := by
  refine ⟨sortByKey openIndexKey (getOpenTabInfo tabItems openTabs).1,
    sortByKey bookmarkIndexKey (getOpenTabInfo tabItems openTabs).2,
    rfl, ?_, ?_, pairwise_sortByKey _ _, pairwise_sortByKey _ _⟩
  · intro ti hti
    have h2 := mem_sortByKey.mp hti
    have h3 : ti ∈ (mergedGroups tabItems openTabs).flatten.filter (fun x => x.«open») := h2
    exact (List.mem_filter.mp h3).2
  · intro ti hti
    have h2 := mem_sortByKey.mp hti
    have h3 : ti ∈ (mergedGroups tabItems openTabs).flatten.filter (fun x => !x.«open») := h2
    have h4 := (List.mem_filter.mp h3).2
    simpa using h4

/-- C9: `removeOpenWindowState` keeps exactly the saved items, in order, each
reset to saved-only; the window-level open facet fields are reset to their
defaults and the saved facet fields are unchanged. -/
theorem removeOpenWindowState_spec (w : TabWindow) :
    (removeOpenWindowState w).tabItems
        = (w.tabItems.filter (fun ti => ti.saved)).map resetSavedItem
      ∧ (∀ ti ∈ (removeOpenWindowState w).tabItems,
            ti.«open» = false ∧ ti.openState = none ∧ ti.saved = true)
      ∧ (removeOpenWindowState w).«open» = false
      ∧ (removeOpenWindowState w).openWindowId = -1
      ∧ (removeOpenWindowState w).windowType = ""
      ∧ (removeOpenWindowState w).saved = w.saved
      ∧ (removeOpenWindowState w).savedTitle = w.savedTitle
      ∧ (removeOpenWindowState w).savedFolderId = w.savedFolderId := by
  refine ⟨rfl, ?_, rfl, rfl, rfl, rfl, rfl, rfl⟩
  intro ti hti
  have h2 : ti ∈ (w.tabItems.filter (fun x => x.saved)).map resetSavedItem := hti
  obtain ⟨x, hx, rfl⟩ := List.mem_map.mp h2
  have hx2 := (List.mem_filter.mp hx).2
  exact ⟨rfl, rfl, hx2⟩

/-- C10: `removeSavedWindowState` resets only the window-level saved facet
fields to their defaults; `tabItems` (hence every item's own saved facet) and
the open facet fields are unchanged. -/
theorem removeSavedWindowState_spec (w : TabWindow) :
    (removeSavedWindowState w).saved = false
      ∧ (removeSavedWindowState w).savedFolderId = JsId.num (-1)
      ∧ (removeSavedWindowState w).savedTitle = ""
      ∧ (removeSavedWindowState w).tabItems = w.tabItems
      ∧ (removeSavedWindowState w).«open» = w.«open»
      ∧ (removeSavedWindowState w).openWindowId = w.openWindowId
      ∧ (removeSavedWindowState w).windowType = w.windowType :=
  ⟨rfl, rfl, rfl, rfl, rfl, rfl, rfl⟩

/-- C5 (code-bug evidence): `saveTab` builds the new saved state with
`new SavedTabState(tabNode)`, whose Record constructor ignores the bookmark
node's `id` and `index` keys, so at this concrete input the stored
`bookmarkId` is `""` (not `"b1"`) and `bookmarkIndex` is `0` (not `3`); only
`title` and `url` are taken from the node. -/
theorem saveTab_drops_bookmark_ids :
    ((saveTab
        { «open» := true, openWindowId := 1,
          tabItems := [{ url := "https://a.com", «open» := true,
                         openState := some { url := "https://a.com", openTabId := 7,
                                             active := true, openTabIndex := 0,
                                             title := "A" } }] }
        { url := "https://a.com", «open» := true,
          openState := some { url := "https://a.com", openTabId := 7, active := true,
                              openTabIndex := 0, title := "A" } }
        { id := "b1", index := 3, title := some "T", url := some "https://a.com" }).bind
          (fun w2 => w2.tabItems.head?)).bind TabItem.savedState
      = some { bookmarkId := "", bookmarkIndex := 0, title := "T", url := "https://a.com" } := by
  decide

/-- C4: when the first open item matching `tabId` sits at index `i`, `closeTab`
replaces it in place by its reset saved-only version when it is saved
(`open=false`, `saved=true`, `openState=null`, `savedState` unchanged), and
removes it from the sequence entirely when it is open-only. -/
theorem closeTab_found_spec (w : TabWindow) (tabId : Int) (i : Nat) (ti : TabItem)
    (h : findEntry? (matchesOpenTabId tabId) w.tabItems = some (i, ti)) :
    (ti.saved = true →
        ∃ ti2, (closeTab w tabId).tabItems
            = w.tabItems.take i ++ ti2 :: w.tabItems.drop (i + 1)
          ∧ ti2.«open» = false ∧ ti2.saved = true ∧ ti2.openState = none
          ∧ ti2.savedState = ti.savedState)
      ∧ (ti.saved = false →
        (closeTab w tabId).tabItems = w.tabItems.take i ++ w.tabItems.drop (i + 1)) := by
  constructor
  · intro hs
    refine ⟨resetSavedItem ti, ?_, rfl, ?_, rfl, rfl⟩
    · simp [closeTab, h, hs, spliceReplace]
    · simp [resetSavedItem, hs]
  · intro hs
    simp [closeTab, h, hs, spliceRemove]

/-- C6: when the snapshot carries a tab list, `updateWindow` returns a window
whose items are the reconciliation result, whose `windowType`, `open` and
`openWindowId` come from the snapshot, and whose saved facet fields are those
of the input window. -/
theorem updateWindow_spec (w : TabWindow) (cw : ChromeWindow) (ts : List Tab)
    (h : cw.tabs = some ts) :
    ∃ w2, updateWindow w cw = some w2
      ∧ w2.tabItems = mergeOpenTabs w.tabItems ts
      ∧ w2.windowType = cw.type
      ∧ w2.«open» = true
      ∧ w2.openWindowId = cw.id
      ∧ w2.saved = w.saved
      ∧ w2.savedTitle = w.savedTitle
      ∧ w2.savedFolderId = w.savedFolderId := by
  have hw2 : updateWindow w cw = some { w with
      tabItems := mergeOpenTabs w.tabItems ts
      windowType := cw.type
      «open» := true
      openWindowId := cw.id } := by
    simp [updateWindow, h]
  exact ⟨_, hw2, rfl, rfl, rfl, rfl, rfl, rfl, rfl⟩

/-- C7: for a well-formed window (every open item carries an `openState`, the
documented `TabItem` invariant, without which the JS lookup itself would
throw), a tab id matching no open item makes both `closeTab` and
`setActiveTab` return the window unchanged; both are total functions in this
embedding, so neither raises. -/
theorem lookupMiss_noop (w : TabWindow) (tabId : Int)
    (_hwf : ∀ ti ∈ w.tabItems, ti.«open» = true → ti.openState.isSome = true)
    (h : ∀ ti ∈ w.tabItems, ¬(ti.«open» = true
          ∧ ti.openState.any (fun os => os.openTabId == tabId) = true)) :
    closeTab w tabId = w ∧ setActiveTab w tabId = w := by
  have hnone : findEntry? (matchesOpenTabId tabId) w.tabItems = none := by
    apply findEntry?_eq_none.mpr
    intro x hx
    have h2 := h x hx
    rw [matchesOpenTabId]
    cases ho : x.«open» with
    | false => simp
    | true =>
      simp only [Bool.true_and]
      by_cases ha : x.openState.any (fun os => os.openTabId == tabId) = true
      · exact absurd ⟨ho, ha⟩ h2
      · simpa using ha
  constructor
  · rw [closeTab, hnone]
  · rw [setActiveTab, hnone]

/-- Preservation step for the single-active invariant: one `setActiveTab` call
keeps the count of open-and-active items at most one. -/
theorem setActiveTab_preserves_single_active (w : TabWindow) (tabId : Int)
    (h : w.tabItems.countP isActiveOpen ≤ 1) :
    (setActiveTab w tabId).tabItems.countP isActiveOpen ≤ 1 := by
  cases hfind : findEntry? (matchesOpenTabId tabId) w.tabItems with
  | none => rw [setActiveTab, hfind]; exact h
  | some e =>
    obtain ⟨index, tabItem⟩ := e
    obtain ⟨hidx, _⟩ := findEntry?_eq_some hfind
    have hlt : index < w.tabItems.length := (List.getElem?_eq_some_iff.mp hidx).1
    rw [setActiveTab, hfind]
    cases hprev : findEntry? isActiveOpen w.tabItems with
    | none =>
      have hzero : w.tabItems.countP isActiveOpen = 0 :=
        List.countP_eq_zero.mpr (by
          intro a ha
          simp [findEntry?_eq_none.mp hprev a ha])
      have hcount := countP_spliceReplace isActiveOpen w.tabItems index tabItem
        { tabItem with openState := tabItem.openState.map (fun os => { os with active := true }) }
        hidx
      simp only []
      by_cases h1 : isActiveOpen tabItem = true
        <;> by_cases h2 : isActiveOpen { tabItem with
              openState := tabItem.openState.map (fun os => { os with active := true }) } = true
        <;> simp [h1, h2] at hcount ⊢ <;> omega
    | some pe =>
      obtain ⟨prevIndex, prevActiveTab⟩ := pe
      obtain ⟨hpidx, hpp⟩ := findEntry?_eq_some hprev
      obtain ⟨os, hos⟩ : ∃ os, prevActiveTab.openState = some os := by
        cases hosc : prevActiveTab.openState with
        | none => rw [isActiveOpen, hosc] at hpp; simp at hpp
        | some os => exact ⟨os, rfl⟩
      have hupd : isActiveOpen { prevActiveTab with
          openState := prevActiveTab.openState.map (fun os => { os with active := false }) } = false := by
        rw [isActiveOpen, hos]
        simp
      have h1 := countP_spliceReplace isActiveOpen w.tabItems prevIndex prevActiveTab
        { prevActiveTab with
          openState := prevActiveTab.openState.map (fun os => { os with active := false }) }
        hpidx
      rw [hpp, hupd] at h1
      have hplt : prevIndex < w.tabItems.length := (List.getElem?_eq_some_iff.mp hpidx).1
      have hlen : (spliceReplace w.tabItems prevIndex
          { prevActiveTab with
            openState := prevActiveTab.openState.map (fun os => { os with active := false }) }).length
          = w.tabItems.length := length_spliceReplace _ hplt
      have hlt2 : index < (spliceReplace w.tabItems prevIndex
          { prevActiveTab with
            openState := prevActiveTab.openState.map (fun os => { os with active := false }) }).length := by
        omega
      obtain ⟨z, hz⟩ : ∃ z, (spliceReplace w.tabItems prevIndex
          { prevActiveTab with
            openState := prevActiveTab.openState.map (fun os => { os with active := false }) })[index]?
          = some z := ⟨_, List.getElem?_eq_getElem hlt2⟩
      have h2 := countP_spliceReplace isActiveOpen _ index _
        { tabItem with openState := tabItem.openState.map (fun os => { os with active := true }) }
        hz
      simp only []
      by_cases hb1 : isActiveOpen z = true
        <;> by_cases hb2 : isActiveOpen { tabItem with
              openState := tabItem.openState.map (fun os => { os with active := true }) } = true
        <;> simp [hb1, hb2] at h1 h2 ⊢
        <;> omega

/-- C3: starting from a window in which at most one item is open-and-active,
any sequence of `setActiveTab` calls (with arbitrary, possibly unmatched tab
ids) leaves at most one open-and-active item. -/
theorem setActiveTab_seq_single_active (w : TabWindow) (ids : List Int)
    (h : w.tabItems.countP isActiveOpen ≤ 1) :
    (ids.foldl setActiveTab w).tabItems.countP isActiveOpen ≤ 1 := by
  induction ids generalizing w with
  | nil => exact h
  | cons i is ih =>
    exact ih (setActiveTab w i) (setActiveTab_preserves_single_active w i h)

theorem mem_of_head?_eq_some {α : Type} {l : List α} {x : α} (h : l.head? = some x) :
    x ∈ l := by
  cases l with
  | nil => simp at h
  | cons a as =>
    simp only [List.head?_cons, Option.some.injEq] at h
    exact h ▸ List.mem_cons_self a as

/-- C2: URL-keyed merge cases of the reconciliation engine.  A live tab whose
URL has a saved match appears in the output with `saved=true` and the
`savedState` of the first saved item at that URL; a live tab with no saved
match appears open-only (`saved=false`); a prior saved item whose URL has no
live match appears saved-only (`open=false`) with its `savedState`, including
`bookmarkIndex`, unchanged. -/
theorem mergeOpenTabs_url_matching (tabItems : List TabItem) (openTabs : List Tab) :
    (∀ tab ∈ openTabs, ∀ s : TabItem,
        (urlGroup (baseSavedItems tabItems) (makeOpenTabItem tab).url).head? = some s →
        { makeOpenTabItem tab with saved := true, savedState := s.savedState }
          ∈ mergeOpenTabs tabItems openTabs)
  ∧ (∀ tab ∈ openTabs,
        (∀ ti ∈ baseSavedItems tabItems, ti.url ≠ (makeOpenTabItem tab).url) →
        makeOpenTabItem tab ∈ mergeOpenTabs tabItems openTabs
          ∧ (makeOpenTabItem tab).saved = false)
  ∧ (∀ ti ∈ tabItems, ti.saved = true →
        (∀ tab ∈ openTabs, (makeOpenTabItem tab).url ≠ ti.url) →
        resetSavedItem ti ∈ mergeOpenTabs tabItems openTabs
          ∧ (resetSavedItem ti).«open» = false
          ∧ (resetSavedItem ti).savedState = ti.savedState) := by
  refine ⟨?_, ?_, ?_⟩
  · intro tab htab s hs
    apply mem_mergeOpenTabs_of_mem_flat
    rw [List.mem_flatten]
    have hlive : makeOpenTabItem tab ∈ liveTabItems openTabs :=
      List.mem_map_of_mem makeOpenTabItem htab
    have hsmem : s ∈ urlGroup (baseSavedItems tabItems) (makeOpenTabItem tab).url :=
      mem_of_head?_eq_some hs
    have hsmem2 := List.mem_filter.mp hsmem
    have hsurl : s.url = (makeOpenTabItem tab).url := by simpa using hsmem2.2
    have husaved : (makeOpenTabItem tab).url
        ∈ firstKeys ((baseSavedItems tabItems).map TabItem.url) :=
      mem_firstKeys.mpr (List.mem_map.mpr ⟨s, hsmem2.1, hsurl⟩)
    have hc : (firstKeys ((baseSavedItems tabItems).map TabItem.url)).contains
        (makeOpenTabItem tab).url = true := by
      simpa using husaved
    refine ⟨mergeTabItems (urlGroup (liveTabItems openTabs) (makeOpenTabItem tab).url)
        (urlGroup (baseSavedItems tabItems) (makeOpenTabItem tab).url), ?_, ?_⟩
    · show _ ∈ mergedGroups tabItems openTabs
      rw [mergedGroups]
      apply List.mem_append_left
      apply List.mem_map.mpr
      refine ⟨(makeOpenTabItem tab).url,
        mem_firstKeys.mpr (List.mem_map.mpr ⟨makeOpenTabItem tab, hlive, rfl⟩), ?_⟩
      rw [if_pos hc]
    · rw [mergeTabItems]
      apply List.mem_map.mpr
      refine ⟨makeOpenTabItem tab, List.mem_filter.mpr ⟨hlive, by simp⟩, ?_⟩
      rw [hs]
      rfl
  · intro tab htab hnone
    refine ⟨?_, rfl⟩
    apply mem_mergeOpenTabs_of_mem_flat
    rw [List.mem_flatten]
    have hlive : makeOpenTabItem tab ∈ liveTabItems openTabs :=
      List.mem_map_of_mem makeOpenTabItem htab
    have hc : (firstKeys ((baseSavedItems tabItems).map TabItem.url)).contains
        (makeOpenTabItem tab).url = false := by
      by_contra hcc
      have hc2 : (firstKeys ((baseSavedItems tabItems).map TabItem.url)).contains
          (makeOpenTabItem tab).url = true := by
        cases hb : (firstKeys ((baseSavedItems tabItems).map TabItem.url)).contains
            (makeOpenTabItem tab).url
        · exact absurd hb hcc
        · rfl
      have hmem : (makeOpenTabItem tab).url
          ∈ (baseSavedItems tabItems).map TabItem.url := by
        have := mem_firstKeys.mp (by simpa using hc2)
        exact this
      obtain ⟨ti, hti, hurl⟩ := List.mem_map.mp hmem
      exact hnone ti hti hurl
    refine ⟨urlGroup (liveTabItems openTabs) (makeOpenTabItem tab).url, ?_, ?_⟩
    · show _ ∈ mergedGroups tabItems openTabs
      rw [mergedGroups]
      apply List.mem_append_left
      apply List.mem_map.mpr
      refine ⟨(makeOpenTabItem tab).url,
        mem_firstKeys.mpr (List.mem_map.mpr ⟨makeOpenTabItem tab, hlive, rfl⟩), ?_⟩
      have hcp : ¬ ((firstKeys ((baseSavedItems tabItems).map TabItem.url)).contains
          (makeOpenTabItem tab).url = true) := by
        rw [hc]
        exact Bool.false_ne_true
      rw [if_neg hcp]
    · exact List.mem_filter.mpr ⟨hlive, by simp⟩
  · intro ti hti hsaved hnone
    refine ⟨?_, rfl, rfl⟩
    apply mem_mergeOpenTabs_of_mem_flat
    rw [List.mem_flatten]
    have hsmem : resetSavedItem ti ∈ baseSavedItems tabItems :=
      List.mem_map_of_mem resetSavedItem (List.mem_filter.mpr ⟨hti, hsaved⟩)
    have husaved : ti.url ∈ firstKeys ((baseSavedItems tabItems).map TabItem.url) :=
      mem_firstKeys.mpr (List.mem_map.mpr ⟨resetSavedItem ti, hsmem, rfl⟩)
    have hcopen : (firstKeys ((liveTabItems openTabs).map TabItem.url)).contains ti.url
        = false := by
      by_contra hcc
      have hc2 : (firstKeys ((liveTabItems openTabs).map TabItem.url)).contains ti.url
          = true := by
        cases hb : (firstKeys ((liveTabItems openTabs).map TabItem.url)).contains ti.url
        · exact absurd hb hcc
        · rfl
      have hmem : ti.url ∈ (liveTabItems openTabs).map TabItem.url := by
        have := mem_firstKeys.mp (by simpa using hc2)
        exact this
      obtain ⟨x, hx, hurl⟩ := List.mem_map.mp hmem
      obtain ⟨tab, htab, rfl⟩ := List.mem_map.mp hx
      exact hnone tab htab hurl
    refine ⟨urlGroup (baseSavedItems tabItems) ti.url, ?_, ?_⟩
    · show _ ∈ mergedGroups tabItems openTabs
      rw [mergedGroups]
      apply List.mem_append_right
      apply List.mem_map.mpr
      refine ⟨ti.url, List.mem_filter.mpr ⟨husaved, ?_⟩, rfl⟩
      rw [hcopen]
      rfl
    · exact List.mem_filter.mpr ⟨hsmem, by simp [resetSavedItem]⟩

/-- C8: building a window from a live snapshot (`makeChromeTabWindow`, the
spec's `fromLiveWindow`) and reconciling its items against the same tab list
permutes the item sequence without changing any item, so the multiset of URLs
and of `openTabIndex` values is unchanged. -/
theorem fromLiveWindow_merge_roundTrip (cw : ChromeWindow) (ts : List Tab)
    (h : cw.tabs = some ts) :
    (mergeOpenTabs (makeChromeTabWindow cw).tabItems ts).Perm (makeChromeTabWindow cw).tabItems
  ∧ ((mergeOpenTabs (makeChromeTabWindow cw).tabItems ts).map TabItem.url).Perm
      ((makeChromeTabWindow cw).tabItems.map TabItem.url)
  ∧ ((mergeOpenTabs (makeChromeTabWindow cw).tabItems ts).map openIndexKey).Perm
      ((makeChromeTabWindow cw).tabItems.map openIndexKey) := by
  have hitems : (makeChromeTabWindow cw).tabItems = liveTabItems ts := by
    simp [makeChromeTabWindow, liveTabItems, h]
  have hmain : (mergeOpenTabs (makeChromeTabWindow cw).tabItems ts).Perm
      (makeChromeTabWindow cw).tabItems := by
    rw [hitems]
    apply mergeOpenTabs_of_all_unsaved
    intro ti hti
    obtain ⟨tab, _, rfl⟩ := List.mem_map.mp hti
    rfl
  exact ⟨hmain, hmain.map TabItem.url, hmain.map openIndexKey⟩

/-- Witness for C2 at the spec's concrete scenario: a.com is saved and live,
b.com is live-only, c.com is saved-only. -/
theorem mergeOpenTabs_url_matching_witness :
    { makeOpenTabItem tabA with
        saved := true
        savedState := (resetSavedItem savedItemA).savedState }
      ∈ mergeOpenTabs [savedItemA, savedItemC] [tabA, tabB]
  ∧ makeOpenTabItem tabB ∈ mergeOpenTabs [savedItemA, savedItemC] [tabA, tabB]
  ∧ resetSavedItem savedItemC ∈ mergeOpenTabs [savedItemA, savedItemC] [tabA, tabB] := by
  obtain ⟨h1, h2, h3⟩ := mergeOpenTabs_url_matching [savedItemA, savedItemC] [tabA, tabB]
  refine ⟨?_, ?_, ?_⟩
  · exact h1 tabA (by decide) (resetSavedItem savedItemA) (by decide)
  · exact (h2 tabB (by decide) (by decide)).1
  · exact (h3 savedItemC (by decide) (by decide) (by decide)).1

/-- Witness for C3: three `setActiveTab` calls (one repeated, one unmatched)
on a concrete window. -/
theorem setActiveTab_seq_single_active_witness :
    (List.foldl setActiveTab windowAB [8, 8, 99]).tabItems.countP isActiveOpen ≤ 1 :=
  setActiveTab_seq_single_active windowAB [8, 8, 99] (by decide)

/-- Witness for C4: closing the open-and-saved a.com tab of `windowOS`. -/
theorem closeTab_found_spec_witness :
    ∃ ti2, (closeTab windowOS 7).tabItems
        = windowOS.tabItems.take 0 ++ ti2 :: windowOS.tabItems.drop 1
      ∧ ti2.«open» = false ∧ ti2.saved = true ∧ ti2.openState = none
      ∧ ti2.savedState = openSavedItemA.savedState :=
  (closeTab_found_spec windowOS 7 0 openSavedItemA (by decide)).1 rfl

/-- Witness for C6: updating `windowOS` from the snapshot `chromeWinAB`. -/
theorem updateWindow_spec_witness :
    ∃ w2, updateWindow windowOS chromeWinAB = some w2
      ∧ w2.tabItems = mergeOpenTabs windowOS.tabItems [tabA, tabB]
      ∧ w2.windowType = chromeWinAB.type
      ∧ w2.«open» = true
      ∧ w2.openWindowId = chromeWinAB.id
      ∧ w2.saved = windowOS.saved
      ∧ w2.savedTitle = windowOS.savedTitle
      ∧ w2.savedFolderId = windowOS.savedFolderId :=
  updateWindow_spec windowOS chromeWinAB [tabA, tabB] rfl

/-- Witness for C7: tab id 99 matches nothing in `windowAB`. -/
theorem lookupMiss_noop_witness :
    closeTab windowAB 99 = windowAB ∧ setActiveTab windowAB 99 = windowAB :=
  lookupMiss_noop windowAB 99 (by decide) (by decide)

/-- Witness for C8 at the concrete snapshot `chromeWinAB`. -/
theorem fromLiveWindow_merge_roundTrip_witness :
    (mergeOpenTabs (makeChromeTabWindow chromeWinAB).tabItems [tabA, tabB]).Perm
        (makeChromeTabWindow chromeWinAB).tabItems
  ∧ ((mergeOpenTabs (makeChromeTabWindow chromeWinAB).tabItems [tabA, tabB]).map TabItem.url).Perm
      ((makeChromeTabWindow chromeWinAB).tabItems.map TabItem.url)
  ∧ ((mergeOpenTabs (makeChromeTabWindow chromeWinAB).tabItems [tabA, tabB]).map openIndexKey).Perm
      ((makeChromeTabWindow chromeWinAB).tabItems.map openIndexKey) :=
  fromLiveWindow_merge_roundTrip chromeWinAB [tabA, tabB] rfl
